import Mathlib

/-!
# confgenfs: the FUSE version shim

A verification development for `confgenfs/fuse_shim.c`:

    void confgenfsGetFuseVersionFromConnInfo(struct fuse_conn_info *cinf,
                                             uint32_t *maj_out, uint32_t *min_out) {
        *maj_out = cinf->proto_major;
        *min_out = cinf->proto_minor;
    }

The function is embedded as a state transformer on an explicit memory that holds
the connection structure and a store of `uint32_t` objects.  Pointers are kept as
values, so that the two stores of the C body are performed one after the other
through the pointers they were given, exactly as the body does.
-/

namespace Confgenfs

/-! ## Machine integers -/

/-- Number of values of the C type `uint32_t`. -/
def UINT32_RANGE : Nat := 2 ^ 32

/-- Conversion of an unsigned integer value to `uint32_t`, as performed by an
assignment to a `uint32_t` lvalue: reduction modulo `2 ^ 32`. -/
def to_uint32 (v : Nat) : Nat := v % UINT32_RANGE

/-! ## Data model -/

/-- Modelled from the spec: `struct fuse_conn_info` is declared in `<fuse.h>`,
which is not among the sources.  The two fields the body of the shim reads,
`proto_major` and `proto_minor`, are kept under their names; they are unsigned
integers.  Every other field of the structure (limits, capability bit sets,
bit-packed flags, padding, reserved words) is gathered in `rest`, whose type is
a parameter, so that nothing is assumed about what those fields are or how
they are laid out. -/
structure fuse_conn_info (Rest : Type) where
  proto_major : Nat
  proto_minor : Nat
  rest : Rest

/-- The two version fields hold values of a 32-bit unsigned type, as every
value of the C structure does: the fields are natural numbers here, and this is
the range their C type confines them to. -/
def fuse_conn_info.InRange {Rest : Type} (c : fuse_conn_info Rest) : Prop :=
  c.proto_major < UINT32_RANGE ∧ c.proto_minor < UINT32_RANGE

instance fuse_conn_info.decInRange {Rest : Type} (c : fuse_conn_info Rest) :
    Decidable c.InRange :=
  inferInstanceAs (Decidable (c.proto_major < UINT32_RANGE ∧ c.proto_minor < UINT32_RANGE))

/-- What a `uint32_t *` argument of the shim may designate: one of the two
version fields of the structure `cinf` points to, or a `uint32_t` object that
lies outside the structure, named by its address. -/
inductive U32Ptr where
  | proto_major_field : U32Ptr
  | proto_minor_field : U32Ptr
  | cell (addr : Nat) : U32Ptr
deriving DecidableEq

/-- Whether the pointer designates an object outside the structure. -/
def U32Ptr.outside : U32Ptr → Bool
  | .proto_major_field => false
  | .proto_minor_field => false
  | .cell _ => true

/-- The memory the shim runs on: the structure `cinf` points to, and the
`uint32_t` objects outside it, by address. -/
structure Mem (Rest : Type) where
  cinf : fuse_conn_info Rest
  cells : Nat → Nat

/-- Store through a `uint32_t *`: `*p = v`. -/
def Mem.store {Rest : Type} (m : Mem Rest) (p : U32Ptr) (v : Nat) : Mem Rest :=
  match p with
  | .proto_major_field => { m with cinf := { m.cinf with proto_major := v } }
  | .proto_minor_field => { m with cinf := { m.cinf with proto_minor := v } }
  | .cell a => { m with cells := fun k => if k = a then v else m.cells k }

/-- Load through a `uint32_t *`: `*p`. -/
def Mem.load {Rest : Type} (m : Mem Rest) (p : U32Ptr) : Nat :=
  match p with
  | .proto_major_field => m.cinf.proto_major
  | .proto_minor_field => m.cinf.proto_minor
  | .cell a => m.cells a

/-! ## The shim -/

/-- The body of `confgenfsGetFuseVersionFromConnInfo`: first
`*maj_out = cinf->proto_major;`, then `*min_out = cinf->proto_minor;`, the
second statement reading the memory the first one left.  The function returns
`void`: it has no result and no error path. -/
def confgenfsGetFuseVersionFromConnInfo {Rest : Type} (m : Mem Rest)
    (maj_out min_out : U32Ptr) : Mem Rest :=
  let m1 := m.store maj_out (to_uint32 m.cinf.proto_major)
  m1.store min_out (to_uint32 m1.cinf.proto_minor)

/-! ## Protocol session (negotiation) -/

/-- Modelled from the spec: the error taxonomy of section 7. -/
inductive EngineError where
  | MountNegotiationFailed : EngineError
  | NotFound : EngineError
  | AlreadyExists : EngineError
  | NotADirectory : EngineError
  | IsADirectory : EngineError
  | NotEmpty : EngineError
  | PermissionDenied : EngineError
  | GenerationFailed (reason : String) : EngineError
  | Rejected (reason : String) : EngineError
  | StaleHandle : EngineError
  | ProtocolViolation : EngineError
deriving DecidableEq

/-- Modelled from the spec: the result of a successful negotiation (section 4.1),
`{chosen_major, chosen_minor, enabled_features}`.  The set of feature flags is
left open by the spec and is a parameter. -/
structure Negotiated (Features : Type) where
  chosen_major : Nat
  chosen_minor : Nat
  enabled_features : Features

/-- Modelled from the spec: `negotiate(peer_major, peer_minor)` of the Protocol
Session (section 4.1), which is not among the sources.  The spec fixes one
thing: a peer major version below the lowest supported one is refused with
`MountNegotiationFailed`.  The lowest supported major version and the choice
made for an accepted peer are not given by the spec and are parameters. -/
def negotiate {Features : Type} (lowest_supported_major : Nat)
    (choose : Nat → Nat → Negotiated Features) (peer_major peer_minor : Nat) :
    Except EngineError (Negotiated Features) :=
  if peer_major < lowest_supported_major then
    Except.error EngineError.MountNegotiationFailed
  else
    Except.ok (choose peer_major peer_minor)

/-! ## Basic facts about the memory -/

theorem to_uint32_lt (v : Nat) : to_uint32 v < UINT32_RANGE := by
  unfold to_uint32 UINT32_RANGE
  exact Nat.mod_lt v (by norm_num)

theorem to_uint32_of_lt {v : Nat} (h : v < UINT32_RANGE) : to_uint32 v = v := by
  unfold to_uint32
  exact Nat.mod_eq_of_lt h

theorem to_uint32_le (v : Nat) : to_uint32 v ≤ v := by
  unfold to_uint32
  exact Nat.mod_le v UINT32_RANGE

theorem outside_is_cell {p : U32Ptr} (h : p.outside = true) : ∃ a, p = U32Ptr.cell a := by
  cases p with
  | proto_major_field => simp [U32Ptr.outside] at h
  | proto_minor_field => simp [U32Ptr.outside] at h
  | cell a => exact ⟨a, rfl⟩

theorem cell_ne {i j : Nat} (h : U32Ptr.cell i ≠ U32Ptr.cell j) : i ≠ j := by
  intro hij
  exact h (congrArg U32Ptr.cell hij)

theorem Mem.ext_fields {Rest : Type} (a b : Mem Rest) (h1 : a.cinf = b.cinf)
    (h2 : a.cells = b.cells) : a = b := by
  cases a
  cases b
  cases h1
  cases h2
  rfl

/-- Running the shim with both outputs outside the structure: the structure is
left as it was. -/
theorem shim_cells_cinf {Rest : Type} (m : Mem Rest) (i j : Nat) :
    (confgenfsGetFuseVersionFromConnInfo m (U32Ptr.cell i) (U32Ptr.cell j)).cinf
      = m.cinf := rfl

/-- Running the shim with both outputs outside the structure: the content of
every object outside the structure afterwards. -/
theorem shim_cells_cells {Rest : Type} (m : Mem Rest) (i j k : Nat) :
    (confgenfsGetFuseVersionFromConnInfo m (U32Ptr.cell i) (U32Ptr.cell j)).cells k
      = if k = j then to_uint32 m.cinf.proto_minor
        else if k = i then to_uint32 m.cinf.proto_major
        else m.cells k := rfl

/-- With two distinct outputs outside the structure, the first output holds the
converted major version after the run. -/
theorem shim_load_maj_out {Rest : Type} (m : Mem Rest) (maj_out min_out : U32Ptr)
    (h1 : maj_out.outside = true) (h2 : min_out.outside = true) (h12 : maj_out ≠ min_out) :
    (confgenfsGetFuseVersionFromConnInfo m maj_out min_out).load maj_out
      = to_uint32 m.cinf.proto_major := by
  obtain ⟨i, rfl⟩ := outside_is_cell h1
  obtain ⟨j, rfl⟩ := outside_is_cell h2
  show (confgenfsGetFuseVersionFromConnInfo m (U32Ptr.cell i) (U32Ptr.cell j)).cells i = _
  rw [shim_cells_cells, if_neg (cell_ne h12), if_pos rfl]

/-- With the second output outside the structure, it holds the converted minor
version after the run. -/
theorem shim_load_min_out {Rest : Type} (m : Mem Rest) (maj_out min_out : U32Ptr)
    (h1 : maj_out.outside = true) (h2 : min_out.outside = true) :
    (confgenfsGetFuseVersionFromConnInfo m maj_out min_out).load min_out
      = to_uint32 m.cinf.proto_minor := by
  obtain ⟨i, rfl⟩ := outside_is_cell h1
  obtain ⟨j, rfl⟩ := outside_is_cell h2
  show (confgenfsGetFuseVersionFromConnInfo m (U32Ptr.cell i) (U32Ptr.cell j)).cells j = _
  rw [shim_cells_cells, if_pos rfl]

/-! ## Why the outputs have to be separate objects

The claims below run the shim with its two outputs designating two distinct
objects outside the structure, which is what a caller passing the addresses of
two local variables does.  The three facts of this section record what the body
does when that is not so. -/

/-- When both output pointers designate the same object, the second store wins:
the object ends up holding the minor version. -/
theorem same_output_cell_holds_minor {Rest : Type} (m : Mem Rest) (i : Nat) :
    (confgenfsGetFuseVersionFromConnInfo m (U32Ptr.cell i) (U32Ptr.cell i)).load
        (U32Ptr.cell i)
      = to_uint32 m.cinf.proto_minor := by
  show (confgenfsGetFuseVersionFromConnInfo m (U32Ptr.cell i) (U32Ptr.cell i)).cells i = _
  rw [shim_cells_cells, if_pos rfl]

/-- When `maj_out` designates the minor field of the structure itself, the second
statement reads the value the first one has just stored. -/
theorem major_out_in_struct_overwrites_minor :
    (confgenfsGetFuseVersionFromConnInfo
        (Mem.mk (fuse_conn_info.mk 7 31 ()) (fun _ => 0))
        U32Ptr.proto_minor_field (U32Ptr.cell 0)).load (U32Ptr.cell 0) = 7 := by
  decide

/-- When `min_out` designates the major field of the structure itself, a second
call does not reproduce what the first one stored. -/
theorem minor_out_in_struct_second_call_differs :
    (confgenfsGetFuseVersionFromConnInfo
        (Mem.mk (fuse_conn_info.mk 7 31 ()) (fun _ => 0))
        (U32Ptr.cell 0) U32Ptr.proto_major_field).load (U32Ptr.cell 0) = 7 ∧
    (confgenfsGetFuseVersionFromConnInfo
        (confgenfsGetFuseVersionFromConnInfo
          (Mem.mk (fuse_conn_info.mk 7 31 ()) (fun _ => 0))
          (U32Ptr.cell 0) U32Ptr.proto_major_field)
        (U32Ptr.cell 0) U32Ptr.proto_major_field).load (U32Ptr.cell 0) = 31 := by
  decide

/-! ## The claims -/

/-- C1: for every connection structure whose version fields are 32-bit unsigned
values and every prior content of the memory, after the shim has run with two
distinct output objects outside the structure, the object `maj_out` designates
holds exactly `proto_major` and the object `min_out` designates holds exactly
`proto_minor`. -/
theorem C1_major_to_first_minor_to_second {Rest : Type} (c : fuse_conn_info Rest)
    (cells : Nat → Nat) (maj_out min_out : U32Ptr) (hc : c.InRange)
    (h1 : maj_out.outside = true) (h2 : min_out.outside = true)
    (h12 : maj_out ≠ min_out) :
    (confgenfsGetFuseVersionFromConnInfo (Mem.mk c cells) maj_out min_out).load maj_out
      = c.proto_major ∧
    (confgenfsGetFuseVersionFromConnInfo (Mem.mk c cells) maj_out min_out).load min_out
      = c.proto_minor := by
  rw [shim_load_maj_out _ _ _ h1 h2 h12, shim_load_min_out _ _ _ h1 h2]
  exact ⟨to_uint32_of_lt hc.1, to_uint32_of_lt hc.2⟩

/-- The statement of C1 at protocol version 7.31, with every other field bit set
and both outputs holding `0xdeadbeef` beforehand. -/
theorem C1_witness :
    (fuse_conn_info.mk 7 31 (4294967295 : Nat)).InRange ∧
    (confgenfsGetFuseVersionFromConnInfo
        (Mem.mk (fuse_conn_info.mk 7 31 (4294967295 : Nat)) (fun _ => 3735928559))
        (U32Ptr.cell 0) (U32Ptr.cell 1)).load (U32Ptr.cell 0) = 7 ∧
    (confgenfsGetFuseVersionFromConnInfo
        (Mem.mk (fuse_conn_info.mk 7 31 (4294967295 : Nat)) (fun _ => 3735928559))
        (U32Ptr.cell 0) (U32Ptr.cell 1)).load (U32Ptr.cell 1) = 31 :=
  ⟨by decide,
   C1_major_to_first_minor_to_second (fuse_conn_info.mk 7 31 (4294967295 : Nat))
     (fun _ => 3735928559) (U32Ptr.cell 0) (U32Ptr.cell 1)
     (by decide) (by decide) (by decide) (by decide)⟩

/-- C2: two connection structures that agree on `proto_major` and `proto_minor`
and differ arbitrarily elsewhere (even in the type of their other fields), run
on arbitrary prior memories with the same output pointers, leave the same pair
of values in the two outputs.  The shim is a total function of the memory: it
has no failing case, whatever the other fields hold. -/
theorem C2_outputs_depend_only_on_versions {R1 R2 : Type}
    (c1 : fuse_conn_info R1) (c2 : fuse_conn_info R2)
    (cells1 cells2 : Nat → Nat) (maj_out min_out : U32Ptr)
    (hmaj : c1.proto_major = c2.proto_major)
    (hmin : c1.proto_minor = c2.proto_minor) :
    (confgenfsGetFuseVersionFromConnInfo (Mem.mk c1 cells1) maj_out min_out).load maj_out
      = (confgenfsGetFuseVersionFromConnInfo (Mem.mk c2 cells2) maj_out min_out).load maj_out ∧
    (confgenfsGetFuseVersionFromConnInfo (Mem.mk c1 cells1) maj_out min_out).load min_out
      = (confgenfsGetFuseVersionFromConnInfo (Mem.mk c2 cells2) maj_out min_out).load min_out := by
  cases maj_out <;> cases min_out <;>
    simp [confgenfsGetFuseVersionFromConnInfo, Mem.store, Mem.load, hmaj, hmin]

/-- The statement of C2 at two structures of version 7.31 whose other fields are
of different types, on different prior memories. -/
theorem C2_witness :
    (confgenfsGetFuseVersionFromConnInfo
        (Mem.mk (fuse_conn_info.mk 7 31 (0 : Nat)) (fun _ => 0))
        (U32Ptr.cell 0) (U32Ptr.cell 1)).load (U32Ptr.cell 0)
      = (confgenfsGetFuseVersionFromConnInfo
        (Mem.mk (fuse_conn_info.mk 7 31 [true, false, true]) (fun k => k + 5))
        (U32Ptr.cell 0) (U32Ptr.cell 1)).load (U32Ptr.cell 0) ∧
    (confgenfsGetFuseVersionFromConnInfo
        (Mem.mk (fuse_conn_info.mk 7 31 (0 : Nat)) (fun _ => 0))
        (U32Ptr.cell 0) (U32Ptr.cell 1)).load (U32Ptr.cell 1)
      = (confgenfsGetFuseVersionFromConnInfo
        (Mem.mk (fuse_conn_info.mk 7 31 [true, false, true]) (fun k => k + 5))
        (U32Ptr.cell 0) (U32Ptr.cell 1)).load (U32Ptr.cell 1) :=
  C2_outputs_depend_only_on_versions (fuse_conn_info.mk 7 31 (0 : Nat))
    (fuse_conn_info.mk 7 31 [true, false, true]) (fun _ => 0) (fun k => k + 5)
    (U32Ptr.cell 0) (U32Ptr.cell 1) rfl rfl

/-- C3: when the major version of the peer is below the lowest major version the
engine supports, negotiation over the peer version, and negotiation over the
two values the shim extracted from the connection structure into two distinct
objects outside it, both return `MountNegotiationFailed`, and neither returns a
chosen version. -/
theorem C3_negotiation_fails_closed {Rest Features : Type}
    (lowest_supported_major : Nat) (choose : Nat → Nat → Negotiated Features)
    (m : Mem Rest) (maj_out min_out : U32Ptr)
    (h1 : maj_out.outside = true) (h2 : min_out.outside = true)
    (h12 : maj_out ≠ min_out)
    (hlow : m.cinf.proto_major < lowest_supported_major) :
    negotiate lowest_supported_major choose m.cinf.proto_major m.cinf.proto_minor
      = Except.error EngineError.MountNegotiationFailed ∧
    negotiate lowest_supported_major choose
        ((confgenfsGetFuseVersionFromConnInfo m maj_out min_out).load maj_out)
        ((confgenfsGetFuseVersionFromConnInfo m maj_out min_out).load min_out)
      = Except.error EngineError.MountNegotiationFailed ∧
    ∀ v : Negotiated Features,
      negotiate lowest_supported_major choose
        ((confgenfsGetFuseVersionFromConnInfo m maj_out min_out).load maj_out)
        ((confgenfsGetFuseVersionFromConnInfo m maj_out min_out).load min_out)
      ≠ Except.ok v := by
  have hout : (confgenfsGetFuseVersionFromConnInfo m maj_out min_out).load maj_out
      < lowest_supported_major := by
    rw [shim_load_maj_out m maj_out min_out h1 h2 h12]
    exact Nat.lt_of_le_of_lt (to_uint32_le _) hlow
  refine ⟨?_, ?_, ?_⟩
  · unfold negotiate
    rw [if_pos hlow]
  · unfold negotiate
    rw [if_pos hout]
  · intro v hv
    unfold negotiate at hv
    rw [if_pos hout] at hv
    cases hv

/-- The statement of C3 for a peer of major version 6 against an engine whose
lowest supported major version is 7. -/
theorem C3_witness :
    negotiate 7 (fun a b => Negotiated.mk a b ()) 6 31
      = Except.error EngineError.MountNegotiationFailed ∧
    negotiate 7 (fun a b => Negotiated.mk a b ())
        ((confgenfsGetFuseVersionFromConnInfo
          (Mem.mk (fuse_conn_info.mk 6 31 (0 : Nat)) (fun _ => 9))
          (U32Ptr.cell 0) (U32Ptr.cell 1)).load (U32Ptr.cell 0))
        ((confgenfsGetFuseVersionFromConnInfo
          (Mem.mk (fuse_conn_info.mk 6 31 (0 : Nat)) (fun _ => 9))
          (U32Ptr.cell 0) (U32Ptr.cell 1)).load (U32Ptr.cell 1))
      = Except.error EngineError.MountNegotiationFailed ∧
    ∀ v : Negotiated Unit,
      negotiate 7 (fun a b => Negotiated.mk a b ())
        ((confgenfsGetFuseVersionFromConnInfo
          (Mem.mk (fuse_conn_info.mk 6 31 (0 : Nat)) (fun _ => 9))
          (U32Ptr.cell 0) (U32Ptr.cell 1)).load (U32Ptr.cell 0))
        ((confgenfsGetFuseVersionFromConnInfo
          (Mem.mk (fuse_conn_info.mk 6 31 (0 : Nat)) (fun _ => 9))
          (U32Ptr.cell 0) (U32Ptr.cell 1)).load (U32Ptr.cell 1))
      ≠ Except.ok v :=
  C3_negotiation_fails_closed 7 (fun a b => Negotiated.mk a b ())
    (Mem.mk (fuse_conn_info.mk 6 31 (0 : Nat)) (fun _ => 9))
    (U32Ptr.cell 0) (U32Ptr.cell 1) (by decide) (by decide) (by decide) (by decide)

/-- C4: for every connection structure whose version fields are 32-bit unsigned
values, the two values the shim writes to two distinct objects outside the
structure lie in `0 .. 2 ^ 32 - 1` and are numerically equal to `proto_major`
and `proto_minor`: the conversion to `uint32_t` in the copy changes neither. -/
theorem C4_outputs_in_range_and_exact {Rest : Type} (c : fuse_conn_info Rest)
    (cells : Nat → Nat) (maj_out min_out : U32Ptr) (hc : c.InRange)
    (h1 : maj_out.outside = true) (h2 : min_out.outside = true)
    (h12 : maj_out ≠ min_out) :
    (confgenfsGetFuseVersionFromConnInfo (Mem.mk c cells) maj_out min_out).load maj_out
      ≤ 2 ^ 32 - 1 ∧
    (confgenfsGetFuseVersionFromConnInfo (Mem.mk c cells) maj_out min_out).load min_out
      ≤ 2 ^ 32 - 1 ∧
    (confgenfsGetFuseVersionFromConnInfo (Mem.mk c cells) maj_out min_out).load maj_out
      = c.proto_major ∧
    (confgenfsGetFuseVersionFromConnInfo (Mem.mk c cells) maj_out min_out).load min_out
      = c.proto_minor ∧
    to_uint32 c.proto_major = c.proto_major ∧
    to_uint32 c.proto_minor = c.proto_minor := by
  have e1 := to_uint32_of_lt hc.1
  have e2 := to_uint32_of_lt hc.2
  have b1 := to_uint32_lt c.proto_major
  have b2 := to_uint32_lt c.proto_minor
  have r : UINT32_RANGE = 2 ^ 32 := rfl
  rw [r] at b1 b2
  rw [shim_load_maj_out _ _ _ h1 h2 h12, shim_load_min_out _ _ _ h1 h2]
  refine ⟨?_, ?_, e1, e2, e1, e2⟩
  · show to_uint32 c.proto_major ≤ 2 ^ 32 - 1
    omega
  · show to_uint32 c.proto_minor ≤ 2 ^ 32 - 1
    omega

/-- The statement of C4 at the largest 32-bit value and at `2 ^ 31`, the two
values a truncating or sign-changing copy would alter. -/
theorem C4_witness :
    (fuse_conn_info.mk 4294967295 2147483648 (0 : Nat)).InRange ∧
    (confgenfsGetFuseVersionFromConnInfo
        (Mem.mk (fuse_conn_info.mk 4294967295 2147483648 (0 : Nat)) (fun _ => 0))
        (U32Ptr.cell 0) (U32Ptr.cell 1)).load (U32Ptr.cell 0) ≤ 2 ^ 32 - 1 ∧
    (confgenfsGetFuseVersionFromConnInfo
        (Mem.mk (fuse_conn_info.mk 4294967295 2147483648 (0 : Nat)) (fun _ => 0))
        (U32Ptr.cell 0) (U32Ptr.cell 1)).load (U32Ptr.cell 1) ≤ 2 ^ 32 - 1 ∧
    (confgenfsGetFuseVersionFromConnInfo
        (Mem.mk (fuse_conn_info.mk 4294967295 2147483648 (0 : Nat)) (fun _ => 0))
        (U32Ptr.cell 0) (U32Ptr.cell 1)).load (U32Ptr.cell 0) = 4294967295 ∧
    (confgenfsGetFuseVersionFromConnInfo
        (Mem.mk (fuse_conn_info.mk 4294967295 2147483648 (0 : Nat)) (fun _ => 0))
        (U32Ptr.cell 0) (U32Ptr.cell 1)).load (U32Ptr.cell 1) = 2147483648 ∧
    to_uint32 4294967295 = 4294967295 ∧
    to_uint32 2147483648 = 2147483648 :=
  ⟨by decide,
   C4_outputs_in_range_and_exact (fuse_conn_info.mk 4294967295 2147483648 (0 : Nat))
     (fun _ => 0) (U32Ptr.cell 0) (U32Ptr.cell 1)
     (by decide) (by decide) (by decide) (by decide)⟩

/-- C5: the shim, run with its two outputs outside the structure, leaves the
whole connection structure as it was, field by field, and leaves every object
other than the two output objects with the content it had. -/
theorem C5_only_the_outputs_change {Rest : Type} (m : Mem Rest)
    (maj_out min_out : U32Ptr)
    (h1 : maj_out.outside = true) (h2 : min_out.outside = true) :
    (confgenfsGetFuseVersionFromConnInfo m maj_out min_out).cinf = m.cinf ∧
    (confgenfsGetFuseVersionFromConnInfo m maj_out min_out).cinf.proto_major
      = m.cinf.proto_major ∧
    (confgenfsGetFuseVersionFromConnInfo m maj_out min_out).cinf.proto_minor
      = m.cinf.proto_minor ∧
    (confgenfsGetFuseVersionFromConnInfo m maj_out min_out).cinf.rest = m.cinf.rest ∧
    ∀ p : U32Ptr, p ≠ maj_out → p ≠ min_out →
      (confgenfsGetFuseVersionFromConnInfo m maj_out min_out).load p = m.load p := by
  obtain ⟨i, rfl⟩ := outside_is_cell h1
  obtain ⟨j, rfl⟩ := outside_is_cell h2
  refine ⟨rfl, rfl, rfl, rfl, ?_⟩
  intro p hpi hpj
  cases p with
  | proto_major_field => rfl
  | proto_minor_field => rfl
  | cell k =>
    show (confgenfsGetFuseVersionFromConnInfo m (U32Ptr.cell i) (U32Ptr.cell j)).cells k
      = m.cells k
    rw [shim_cells_cells, if_neg (cell_ne hpj), if_neg (cell_ne hpi)]

/-- The statement of C5 at outputs 0 and 1: the structure and the object at
address 2 are as before. -/
theorem C5_witness :
    (confgenfsGetFuseVersionFromConnInfo
        (Mem.mk (fuse_conn_info.mk 7 31 (5 : Nat)) (fun k => k + 100))
        (U32Ptr.cell 0) (U32Ptr.cell 1)).cinf
      = fuse_conn_info.mk 7 31 (5 : Nat) ∧
    (confgenfsGetFuseVersionFromConnInfo
        (Mem.mk (fuse_conn_info.mk 7 31 (5 : Nat)) (fun k => k + 100))
        (U32Ptr.cell 0) (U32Ptr.cell 1)).load (U32Ptr.cell 2) = 102 :=
  ⟨(C5_only_the_outputs_change
      (Mem.mk (fuse_conn_info.mk 7 31 (5 : Nat)) (fun k => k + 100))
      (U32Ptr.cell 0) (U32Ptr.cell 1) (by decide) (by decide)).1,
   (C5_only_the_outputs_change
      (Mem.mk (fuse_conn_info.mk 7 31 (5 : Nat)) (fun k => k + 100))
      (U32Ptr.cell 0) (U32Ptr.cell 1) (by decide) (by decide)).2.2.2.2
      (U32Ptr.cell 2) (by decide) (by decide)⟩

/-- C6: running the shim a second time on the memory the first run left, with
the same two outputs outside the structure, gives exactly the memory the first
run left: same structure, same content of every object. -/
theorem C6_second_call_changes_nothing {Rest : Type} (m : Mem Rest)
    (maj_out min_out : U32Ptr)
    (h1 : maj_out.outside = true) (h2 : min_out.outside = true) :
    confgenfsGetFuseVersionFromConnInfo
        (confgenfsGetFuseVersionFromConnInfo m maj_out min_out) maj_out min_out
      = confgenfsGetFuseVersionFromConnInfo m maj_out min_out := by
  obtain ⟨i, rfl⟩ := outside_is_cell h1
  obtain ⟨j, rfl⟩ := outside_is_cell h2
  apply Mem.ext_fields
  · rfl
  · funext k
    simp only [shim_cells_cells, shim_cells_cinf]
    split
    · rfl
    · split <;> rfl

/-- The statement of C6 at protocol version 7.31 with outputs 0 and 1. -/
theorem C6_witness :
    confgenfsGetFuseVersionFromConnInfo
        (confgenfsGetFuseVersionFromConnInfo
          (Mem.mk (fuse_conn_info.mk 7 31 (5 : Nat)) (fun _ => 3735928559))
          (U32Ptr.cell 0) (U32Ptr.cell 1))
        (U32Ptr.cell 0) (U32Ptr.cell 1)
      = confgenfsGetFuseVersionFromConnInfo
          (Mem.mk (fuse_conn_info.mk 7 31 (5 : Nat)) (fun _ => 3735928559))
          (U32Ptr.cell 0) (U32Ptr.cell 1) :=
  C6_second_call_changes_nothing
    (Mem.mk (fuse_conn_info.mk 7 31 (5 : Nat)) (fun _ => 3735928559))
    (U32Ptr.cell 0) (U32Ptr.cell 1) (by decide) (by decide)

end Confgenfs
